import Mathlib

/-!
Shallow embedding of the upload/registration pipeline of the
versioned-artifact registry (SvelteKit + Supabase repository).

The authoritative handler is the size-based-routing variant of
`src/routes/api/upload/+server.ts` (the second `POST` in that file,
lines 391-924), together with the SQL migrations
`001_create_api_keys_table.sql` .. `004_create_update_latest_version_function.sql`
and the read path in `src/routes/+page.server.ts`.

External collaborators (Supabase PostgREST, Supabase Storage, the MEGA
client, `JSON.parse`) are modelled by explicit data (`DB`), by an
`Oracle` of outcome flags for each fallible call, and by an effect
trace recording which storage backend was contacted.
-/

/-- Model of a JSON value (the `metadata` form field parses to one, and the
`versions.metadata` JSONB column stores one). -/
inductive Json where
  | null : Json
  | bool (b : Bool) : Json
  | num (n : Int) : Json
  | str (s : String) : Json
  | arr (elems : List Json) : Json
  | obj (fields : List (String × Json)) : Json
deriving Repr

/-- Row of `api_keys` (migration 001): bearer credentials with a soft-revoke
flag; `last_used_at` is bumped on successful validation. -/
structure ApiKeyRecord where
  id : String
  key_name : String
  key_value : String
  is_active : Bool
  last_used_at : Option Nat
deriving Repr

/-- Row of `file_metadata` (migration 002): one row per artifact name
(`file_name` is UNIQUE); `updated_at` is bumped by the version trigger. -/
structure FileMetadataRecord where
  id : String
  file_name : String
  updated_at : Nat
deriving Repr

/-- Row of `versions` (migration 003): one committed version; the pair
`(file_metadata_id, version)` is UNIQUE; `is_latest` defaults to FALSE
and is maintained by the trigger of migration 004. -/
structure VersionRow where
  id : String
  file_metadata_id : String
  version : String
  storage_path : String
  file_size : Nat
  file_type : String
  metadata : List (String × Json)
  is_latest : Bool
  uploaded_by : String
  uploaded_at : Nat
deriving Repr

/-- The relational state shared by all requests. -/
structure DB where
  apiKeys : List ApiKeyRecord
  fileMetadata : List FileMetadataRecord
  versions : List VersionRow
deriving Repr

/-! ## The `update_latest_version` trigger (migration 004)

```sql
UPDATE versions SET is_latest = FALSE WHERE file_metadata_id = NEW.file_metadata_id;
UPDATE versions SET is_latest = TRUE  WHERE id = NEW.id;
UPDATE file_metadata SET updated_at = NOW() WHERE id = NEW.file_metadata_id;
```
fired AFTER INSERT ON versions FOR EACH ROW, inside the insert's
transaction. `insertVersion` is the whole atomic commit unit:
append the new row, then run the trigger body. -/

/-- First trigger statement: clear `is_latest` on every version of the
artifact (the freshly inserted row included, being already visible). -/
def clearLatest (fid : String) (rows : List VersionRow) : List VersionRow :=
  rows.map (fun v => if v.file_metadata_id == fid then { v with is_latest := false } else v)

/-- Second trigger statement: set `is_latest` on the row with the new id. -/
def setLatestById (vid : String) (rows : List VersionRow) : List VersionRow :=
  rows.map (fun v => if v.id == vid then { v with is_latest := true } else v)

/-- Trigger body of `update_latest_version` restricted to the `versions`
table: clear the artifact's flags, then set the new row's flag. -/
def update_latest_version (rows : List VersionRow) (newRow : VersionRow) : List VersionRow :=
  setLatestById newRow.id (clearLatest newRow.file_metadata_id rows)

/-- Atomic commit of one version: SQL INSERT (append, in commit order)
followed by the AFTER INSERT trigger; the third trigger statement bumps
the artifact's `updated_at` to the insert's NOW() (= `uploaded_at`). -/
def insertVersion (db : DB) (r : VersionRow) : DB :=
  { db with
    versions := update_latest_version (db.versions ++ [r]) r
    fileMetadata := db.fileMetadata.map
      (fun f => if f.id == r.file_metadata_id then { f with updated_at := r.uploaded_at } else f) }

/-- Committing a sequence of versions in commit order. -/
def commitAll (db : DB) (commits : List VersionRow) : DB :=
  commits.foldl insertVersion db

/-- The versions of one artifact, in commit order (inserts append). -/
def artifactVersions (db : DB) (fid : String) : List VersionRow :=
  db.versions.filter (fun v => v.file_metadata_id == fid)

/-- Latest invariant: every artifact either has no versions, or all of its
versions except the most recently committed one have `is_latest = false`
and the most recently committed one has `is_latest = true`. -/
def LatestInv (db : DB) : Prop :=
  ∀ fid, artifactVersions db fid = [] ∨
    ((∀ v ∈ (artifactVersions db fid).dropLast, v.is_latest = false) ∧
     ∃ last, (artifactVersions db fid).getLast? = some last ∧ last.is_latest = true)

/-! ## JavaScript string semantics

Helpers mirroring the JavaScript string methods the handler uses,
written structurally over the character list so that concrete runs
evaluate inside the kernel. -/

/-- Whitespace trimmed by `String.prototype.trim` (ASCII part). -/
def isJsSpace (c : Char) : Bool :=
  c == ' ' || c == '\t' || c == '\n' || c == '\r' || c == '\x0b' || c == '\x0c'

/-- JavaScript `s.trim()`. -/
def jsTrim (s : String) : String :=
  String.mk (((s.data.dropWhile isJsSpace).reverse.dropWhile isJsSpace).reverse)

/-- JavaScript `s.startsWith(pat)`. -/
def jsStartsWith (s pat : String) : Bool :=
  pat.data.isPrefixOf s.data

/-- JavaScript `s.endsWith(pat)`. -/
def jsEndsWith (s pat : String) : Bool :=
  pat.data.isSuffixOf s.data

/-- Dropping the first `n` characters of `s` (used for
`authHeader.replace('Bearer','')`, which removes the 6 leading
characters given the `startsWith('Bearer ')` guard). -/
def jsDrop (s : String) (n : Nat) : String :=
  String.mk (s.data.drop n)

/-- JavaScript string falsiness / `!s`. -/
def jsIsEmpty (s : String) : Bool :=
  s.data.isEmpty

/-- JavaScript `s.includes(pat)`. -/
def strIncludes (s pat : String) : Bool :=
  s.data.tails.any (fun t => pat.data.isPrefixOf t)

/-- JavaScript `s.replace(/\/$/, '')`: strip one trailing slash. -/
def stripTrailingSlash (s : String) : String :=
  if jsEndsWith s "/" then String.mk s.data.dropLast else s

/-- Predicate test over every character of a string. -/
def strAll (s : String) (p : Char → Bool) : Bool :=
  s.data.all p

/-! ## HTTP layer: constants, responses (`+server.ts`, routing variant) -/

/-- MAX_FILE_SIZE_BYTES = 100 * 1024 * 1024 (absolute request ceiling). -/
def MAX_FILE_SIZE_BYTES : Nat := 100 * 1024 * 1024

/-- SUPABASE_OBJECT_SIZE_LIMIT_BYTES = 50 * 1024 * 1024 (per-object cap of the
primary backend; the routing threshold). -/
def SUPABASE_OBJECT_SIZE_LIMIT_BYTES : Nat := 50 * 1024 * 1024

/-- STORAGE_BUCKET = 'files'. -/
def STORAGE_BUCKET : String := "files"

/-- Character class of FILE_NAME_REGEX = `^[A-Za-z0-9_-]+$`. -/
def isFileNameChar (c : Char) : Bool :=
  c.isAlphanum || c == '_' || c == '-'

/-- FILE_NAME_REGEX test on a whole string. -/
def regexFileName (s : String) : Bool :=
  !jsIsEmpty s && strAll s isFileNameChar

/-- Character class of VERSION_REGEX = `^[A-Za-z0-9._-]+$`. -/
def isVersionChar (c : Char) : Bool :=
  c.isAlphanum || c == '.' || c == '_' || c == '-'

/-- VERSION_REGEX test on a whole string. -/
def regexVersion (s : String) : Bool :=
  !jsIsEmpty s && strAll s isVersionChar

/-- Data part of the 201 success body. -/
structure SuccessData where
  fileMetadataId : String
  versionId : String
  fileName : String
  version : String
  storagePath : String
  storageProvider : String
  fileSize : Nat
  fileType : String
  downloadUrl : String
  uploadedAt : Nat
  uploadedBy : String
deriving Repr

/-- Body of a JSON HTTP response: either the error shape
`{success: false, error, message}` or the success shape
`{success: true, message, data}`. -/
inductive RespBody where
  | failure (error : String) (message : String) : RespBody
  | success (message : String) (data : SuccessData) : RespBody
deriving Repr

/-- An HTTP response: status code plus JSON body. -/
structure Response where
  status : Nat
  body : RespBody
deriving Repr

/-- badRequest helper: 400 `{success:false, error:'Bad Request', message}`. -/
def badRequest (message : String) : Response :=
  ⟨400, .failure "Bad Request" message⟩

/-- unauthorized helper with explicit message (401). -/
def unauthorized (message : String) : Response :=
  ⟨401, .failure "Unauthorized" message⟩

/-- unauthorized() with its default message. -/
def unauthorizedDefault : Response :=
  unauthorized "Invalid or inactive API key"

/-- conflict helper (409). -/
def conflict (message : String) : Response :=
  ⟨409, .failure "Conflict" message⟩

/-- payloadTooLarge helper (413). -/
def payloadTooLarge (message : String) : Response :=
  ⟨413, .failure "Payload Too Large" message⟩

/-- internalError helper with explicit message (500). -/
def internalError (message : String) : Response :=
  ⟨500, .failure "Internal Server Error" message⟩

/-- internalError() with its default message. -/
def internalErrorDefault : Response :=
  internalError "An error occurred while processing your request"

/-- created 201 success response. -/
def created (data : SuccessData) : Response :=
  ⟨201, .success "File uploaded successfully" data⟩

/-- Projection used to talk about the returned download URL. -/
def dataDownloadUrl : Response → Option String
  | ⟨_, .success _ d⟩ => some d.downloadUrl
  | _ => none

/-! ## Request model -/

/-- The `file` form field (a JavaScript `File`): `name`, MIME `type`, byte
`size`. Sizes of real `File`s are finite non-negative integers, so
`Number.isFinite(file.size)` always holds and `file.size <= 0` means
`size = 0`. -/
structure FilePart where
  name : String
  type : String
  size : Nat
deriving Repr

/-- Outcome of reading and `JSON.parse`-ing the optional `metadata` form
field. `absent` covers a missing field, a non-string value and a
whitespace-only string (all skip parsing); `invalidJson` is a
`JSON.parse` throw; `nonObject` is a parse to an array/scalar/null. -/
inductive MetaField where
  | absent : MetaField
  | invalidJson : MetaField
  | nonObject : MetaField
  | object (fields : List (String × Json)) : MetaField
deriving Repr

/-- One inbound `POST /api/upload` request. `formParses` models whether
`request.formData()` succeeds; `none` form fields model absent or
non-string values. -/
structure UploadRequest where
  authHeader : Option String
  formParses : Bool
  file : Option FilePart
  fileName : Option String
  version : Option String
  metadataField : MetaField
deriving Repr

/-- Server environment configuration (`$env` values; `none` = unset). -/
structure Config where
  supabaseUrl : Option String
  serviceRoleKey : Option String
  megaEmail : Option String
  megaPassword : Option String
deriving Repr

/-- Outcomes of the external calls a single request performs, one field per
fallible collaborator call site; the `race*` fields inject rows committed
by concurrent requests at the data layer (after our read, before our
write), which is how a unique-constraint loss happens. -/
structure Oracle where
  apiKeySectionThrows : Bool
  apiKeyQueryError : Bool
  lastUsedUpdateFails : Bool
  fmQueryError : Bool
  fmRace : Option FileMetadataRecord
  fmInsertError : Bool
  newFmId : String
  versionCheckError : Bool
  prepareThrows : Bool
  storageUploadError : Bool
  megaError : Bool
  megaLink : String
  raceVersionRow : Option VersionRow
  versionInsertError : Bool
  newVersionId : String
  removeFails : Bool
  now : Nat
deriving Repr

/-- Storage-backend contact made while handling a request. -/
inductive Effect where
  | supabaseUpload (objectPath : String) : Effect
  | megaUpload (name : String) : Effect
  | supabaseRemove (objectPath : String) : Effect
deriving Repr, DecidableEq

/-- Result of running the handler: the HTTP response, the database
afterwards, and the storage contacts made. -/
structure RunResult where
  response : Response
  db : DB
  effects : List Effect
deriving Repr

/-! ## Handler stages (`+server.ts` lines 513-924) -/

/-- Validated form data (the handler's local variables after section 1). -/
structure ValidatedInput where
  file : FilePart
  trimmedFileName : String
  trimmedVersion : String
  metadata : Option (List (String × Json))
deriving Repr

/-- Section 1: parse and validate multipart/form-data, in source order
(presence checks, trims, the two regexes, the empty-size check, the
100 MiB hard ceiling, then the metadata JSON checks). -/
def validateForm (req : UploadRequest) : Except Response ValidatedInput :=
  if !req.formParses then .error (badRequest "Invalid multipart/form-data")
  else match req.file with
  | none => .error (badRequest "Missing required file field: file")
  | some file =>
    match req.fileName with
    | none => .error (badRequest "Missing required field: fileName")
    | some fileName =>
      if jsIsEmpty (jsTrim fileName) then .error (badRequest "Missing required field: fileName")
      else match req.version with
      | none => .error (badRequest "Missing required field: version")
      | some version =>
        if jsIsEmpty (jsTrim version) then .error (badRequest "Missing required field: version")
        else
          let trimmedFileName := jsTrim fileName
          let trimmedVersion := jsTrim version
          if !regexFileName trimmedFileName then
            .error (badRequest "Invalid fileName format. Use only letters, numbers, dash, and underscore.")
          else if !regexVersion trimmedVersion then
            .error (badRequest "Invalid version format.")
          else if file.size ≤ 0 then
            .error (badRequest "File is empty or has invalid size.")
          else if file.size > MAX_FILE_SIZE_BYTES then
            .error (payloadTooLarge "File size exceeds maximum allowed size of 100MB")
          else match req.metadataField with
          | .invalidJson => .error (badRequest "Invalid metadata JSON")
          | .nonObject => .error (badRequest "metadata must be a JSON object")
          | .absent => .ok ⟨file, trimmedFileName, trimmedVersion, none⟩
          | .object m => .ok ⟨file, trimmedFileName, trimmedVersion, some m⟩

/-- Update of `last_used_at` on the matched key row. -/
def touchLastUsed (db : DB) (rowId : String) (now : Nat) : DB :=
  { db with
    apiKeys := db.apiKeys.map
      (fun r => if r.id == rowId then { r with last_used_at := some now } else r) }

/-- Section 3: API key authentication. Header must be `Bearer <secret>`;
the lookup filters `key_value = secret AND is_active = true`; a query
error or no row both yield the default `unauthorized()`; on success
`last_used_at` is updated best-effort and the key's display name is the
uploader identity. -/
def providedKeyOf (h : String) : String :=
  jsTrim (jsDrop h 6)

def authenticate (db : DB) (authHeader : Option String) (o : Oracle) :
    Except Response (String × DB) :=
  match authHeader with
  | none => .error (unauthorized "Missing or invalid Authorization header")
  | some h =>
    if !(jsStartsWith h "Bearer ") then
      .error (unauthorized "Missing or invalid Authorization header")
    else if jsIsEmpty (providedKeyOf h) then .error (unauthorized "Missing API key")
    else if o.apiKeySectionThrows then .error internalErrorDefault
    else if o.apiKeyQueryError then .error unauthorizedDefault
    else match db.apiKeys.find? (fun r => r.key_value == providedKeyOf h && r.is_active) with
    | none => .error unauthorizedDefault
    | some row =>
      .ok (row.key_name, if o.lastUsedUpdateFails then db else touchLastUsed db row.id o.now)

/-- Database right before our `file_metadata` INSERT: a concurrent
first-upload of the same (or another) new name may have committed its row
in the window after our SELECT. -/
def fmAfterRace (db : DB) (o : Oracle) : DB :=
  match o.fmRace with
  | some raced => { db with fileMetadata := db.fileMetadata ++ [raced] }
  | none => db

/-- Section 3 (second): get or create the `file_metadata` record:
SELECT by name, use the row if found; otherwise INSERT. A concurrent
creation of the same name (`o.fmRace`) lands before our INSERT; the
INSERT then violates the UNIQUE(file_name) constraint and the handler
returns `internalError()` — there is no recover-on-conflict re-read. -/
def getOrCreateFileMetadata (db : DB) (name : String) (o : Oracle) :
    Except Response (FileMetadataRecord × DB) :=
  if o.fmQueryError then .error internalErrorDefault
  else match db.fileMetadata.find? (fun f => f.file_name == name) with
  | some row => .ok (row, db)
  | none =>
    if (fmAfterRace db o).fileMetadata.any (fun f => f.file_name == name) then
      .error internalErrorDefault
    else if o.fmInsertError then .error internalErrorDefault
    else
      .ok (⟨o.newFmId, name, o.now⟩,
        { fmAfterRace db o with
          fileMetadata := (fmAfterRace db o).fileMetadata ++ [⟨o.newFmId, name, o.now⟩] })

/-- Section 4: duplicate version pre-check (SELECT id FROM versions WHERE
file_metadata_id = ? AND version = ? LIMIT 1). -/
def checkDuplicateVersion (db : DB) (fmId ver name : String) (o : Oracle) : Option Response :=
  if o.versionCheckError then some internalErrorDefault
  else if db.versions.any (fun w => w.file_metadata_id == fmId && w.version == ver) then
    some (conflict ("Version " ++ ver ++ " already exists for file " ++ name))
  else none

/-- Models `supabase.storage.from(STORAGE_BUCKET).getPublicUrl(objectPath)`:
supabase-js constructs this URL client-side by string concatenation
(no network call). -/
def publicUrl (supabaseUrl objectPath : String) : String :=
  supabaseUrl ++ "/storage/v1/object/public/" ++ STORAGE_BUCKET ++ "/" ++ objectPath

/-- Property lookup on a modelled JavaScript object. -/
def jsonLookup (m : List (String × Json)) (k : String) : Option Json :=
  (m.find? (fun p => p.1 == k)).map (fun p => p.2)

/-- JavaScript object update `{...m, k: v}` for one key: replace the value
in place when the key is present, else append the key. -/
def setKey (m : List (String × Json)) (k : String) (v : Json) : List (String × Json) :=
  if m.any (fun p => p.1 == k) then
    m.map (fun p => if p.1 == k then (k, v) else p)
  else m ++ [(k, v)]

/-- Metadata stored with the version record (handler section 6):
`{...(metadata ?? {}), storageProvider, originalFileSize, originalFileType}` —
the three fixed keys are written last and overwrite client keys. -/
def mergedMetadata (client : List (String × Json)) (provider : String)
    (originalFileSize : Nat) (originalFileType : String) : List (String × Json) :=
  setKey (setKey (setKey client
    "storageProvider" (Json.str provider))
    "originalFileSize" (Json.num (Int.ofNat originalFileSize)))
    "originalFileType" (Json.str originalFileType)

/-- Database as seen by our commit: rows committed by concurrent requests
between the pre-check and our INSERT are already there. -/
def dbAtCommit (o : Oracle) (db : DB) : DB :=
  match o.raceVersionRow with
  | some r => insertVersion db r
  | none => db

/-- UNIQUE(file_metadata_id, version) violated by our INSERT at commit time. -/
def commitUniqueViolation (o : Oracle) (db : DB) (fmId ver : String) : Bool :=
  (dbAtCommit o db).versions.any (fun w => w.file_metadata_id == fmId && w.version == ver)

/-- Sections 6-7: INSERT the version row (any failure — losing the
uniqueness race included — triggers the best-effort Supabase-only
storage rollback and returns `internalError('Failed to create version
record')`; a rollback throw is caught and changes nothing), then derive
the final download URL: a URL containing `https://mega.nz` is returned
verbatim, otherwise a Supabase public URL is built from `storagePath`. -/
def commitAndRespond (cfg : Config) (o : Oracle) (v : ValidatedInput)
    (uploaderName : String) (fm : FileMetadataRecord) (db : DB)
    (storageProvider : String) (objectPath : Option String) (storagePath : String)
    (storedFileSize : Nat) (storedFileType : String)
    (originalFileSize : Nat) (originalFileType : String)
    (downloadUrl0 : Option String) (effects : List Effect) : RunResult :=
  if commitUniqueViolation o db fm.id v.trimmedVersion || o.versionInsertError then
    let rollback : List Effect :=
      if storageProvider == "supabase" then
        match objectPath with
        | some p => [.supabaseRemove p]
        | none => []
      else []
    ⟨internalError "Failed to create version record", dbAtCommit o db, effects ++ rollback⟩
  else
    let newRow : VersionRow :=
      ⟨o.newVersionId, fm.id, v.trimmedVersion, storagePath, storedFileSize, storedFileType,
       mergedMetadata (v.metadata.getD []) storageProvider originalFileSize originalFileType,
       false, uploaderName, o.now⟩
    let db2 := insertVersion (dbAtCommit o db) newRow
    let downloadUrl : Option String :=
      if storageProvider == "supabase" && objectPath.isSome then
        some (publicUrl (cfg.supabaseUrl.getD "") (objectPath.getD ""))
      else downloadUrl0
    let finalDownloadUrl : Option String :=
      if (match downloadUrl with
          | some u => strIncludes u "https://mega.nz"
          | none => false) then downloadUrl
      else match cfg.supabaseUrl with
        | some su => some (stripTrailingSlash su ++ "/storage/v1/object/public/" ++ storagePath)
        | none => none
    ⟨created ⟨fm.id, o.newVersionId, v.trimmedFileName, v.trimmedVersion, storagePath,
       storageProvider, storedFileSize, storedFileType, finalDownloadUrl.getD storagePath,
       o.now, uploaderName⟩,
     db2, effects⟩

/-- The whole `POST /api/upload` handler (routing variant): validate the
body, initialize the Supabase client, authenticate, get-or-create the
artifact, pre-check duplicates, route by size (≤ 50 MiB → Supabase
Storage, else MEGA), then commit and respond. -/
def POST (cfg : Config) (o : Oracle) (req : UploadRequest) (db : DB) : RunResult :=
  match validateForm req with
  | .error r => ⟨r, db, []⟩
  | .ok v =>
    if cfg.supabaseUrl.isNone || cfg.serviceRoleKey.isNone then
      ⟨internalErrorDefault, db, []⟩
    else match authenticate db req.authHeader o with
    | .error r => ⟨r, db, []⟩
    | .ok (uploaderName, db1) =>
      match getOrCreateFileMetadata db1 v.trimmedFileName o with
      | .error r => ⟨r, db1, []⟩
      | .ok (fm, db2) =>
        match checkDuplicateVersion db2 fm.id v.trimmedVersion v.trimmedFileName o with
        | some r => ⟨r, db2, []⟩
        | none =>
          let originalFileName :=
            if jsIsEmpty v.file.name then v.trimmedFileName ++ "-" ++ v.trimmedVersion
            else v.file.name
          let originalContentType :=
            if jsIsEmpty v.file.type then "application/octet-stream" else v.file.type
          let originalFileSize := v.file.size
          let originalFileType := originalContentType
          if o.prepareThrows then
            ⟨internalError "Failed to prepare file for upload", db2, []⟩
          else if v.file.size ≤ SUPABASE_OBJECT_SIZE_LIMIT_BYTES then
            let objectPath := v.trimmedFileName ++ "/" ++ v.trimmedVersion ++ "/" ++ originalFileName
            let storagePath := STORAGE_BUCKET ++ "/" ++ objectPath
            if o.storageUploadError then
              ⟨internalError "Failed to upload file to storage", db2, [.supabaseUpload objectPath]⟩
            else
              commitAndRespond cfg o v uploaderName fm db2 "supabase" (some objectPath)
                storagePath v.file.size originalContentType originalFileSize originalFileType
                none [.supabaseUpload objectPath]
          else
            if cfg.megaEmail.isNone || cfg.megaPassword.isNone then
              ⟨internalError "Failed to upload file to cloud storage", db2, []⟩
            else if o.megaError then
              ⟨internalError "Failed to upload file to cloud storage", db2,
               [.megaUpload originalFileName]⟩
            else
              commitAndRespond cfg o v uploaderName fm db2 "mega" none
                o.megaLink v.file.size originalContentType originalFileSize originalFileType
                (some o.megaLink) [.megaUpload originalFileName]

/-- Read path (`+page.server.ts` lines 84-101): a `storage_path` that is
already a full URL (MEGA link) is used directly; otherwise a Supabase
public URL is constructed from the base URL. -/
def pageDownloadUrl (baseUrl storagePath : String) : String :=
  if jsStartsWith storagePath "http://" || jsStartsWith storagePath "https://" then storagePath
  else stripTrailingSlash baseUrl ++ "/storage/v1/object/public/" ++ storagePath

/-! ## Concrete fixtures (used by witnesses and counterexamples) -/

/-- Fully-populated server configuration. -/
def cfgW : Config :=
  ⟨some "https://supa.example", some "sr-key", some "mega@example", some "pw"⟩

/-- Oracle on which every collaborator call succeeds and no race occurs. -/
def happyOracle : Oracle :=
  ⟨false, false, false, false, none, false, "fm-1", false, false, false, false,
   "https://mega.nz/file/abc#k", none, false, "v-1", false, 100⟩

/-- One active API key, empty catalog. -/
def dbW : DB := ⟨[⟨"k1", "gitlab-ci", "secret-1", true, none⟩], [], []⟩

/-- A valid small upload request. -/
def reqW : UploadRequest :=
  ⟨some "Bearer secret-1", true, some ⟨"a.txt", "text/plain", 5⟩,
   some "agent", some "1.0.0", .absent⟩

/-- A concurrent commit of agent 1.0.0 (used to exercise the commit-time
uniqueness race). -/
def raceRowW : VersionRow :=
  ⟨"v-race", "fm-1", "1.0.0", "files/agent/1.0.0/b.txt", 3, "text/plain", [],
   false, "other-ci", 99⟩

/-! ## Lemmas about the latest-version trigger -/

/-- Effect of the two flag UPDATE statements on one existing row. -/
def triggerRow (r w : VersionRow) : VersionRow :=
  if w.id == r.id then { w with is_latest := true }
  else if w.file_metadata_id == r.file_metadata_id then { w with is_latest := false }
  else w

/-- The trigger body acts row-wise. -/
theorem update_eq_map_triggerRow (rows : List VersionRow) (r : VersionRow) :
    update_latest_version rows r = rows.map (triggerRow r) := by
  unfold update_latest_version clearLatest setLatestById
  rw [List.map_map]
  apply List.map_congr_left
  intro w _
  by_cases h1 : w.id = r.id <;> by_cases h2 : w.file_metadata_id = r.file_metadata_id <;>
    simp [triggerRow, h1, h2]

/-- Commit order and row identity of the versions table after one commit:
the new row is appended, nothing else moves. -/
theorem insertVersion_pairs (db : DB) (r : VersionRow) :
    (insertVersion db r).versions.map (fun v => (v.file_metadata_id, v.id))
      = db.versions.map (fun v => (v.file_metadata_id, v.id))
        ++ [(r.file_metadata_id, r.id)] := by
  show (update_latest_version (db.versions ++ [r]) r).map _ = _
  rw [update_eq_map_triggerRow, List.map_map, List.map_append]
  have : ∀ w : VersionRow,
      ((fun v => (v.file_metadata_id, v.id)) ∘ triggerRow r) w
        = (fun v : VersionRow => (v.file_metadata_id, v.id)) w := by
    intro w
    by_cases h1 : w.id = r.id <;> by_cases h2 : w.file_metadata_id = r.file_metadata_id <;>
      simp [triggerRow, h1, h2]
  rw [List.map_congr_left (fun w _ => this w)]
  simp [triggerRow]

/-- Row ids of the versions table after one commit. -/
theorem insertVersion_ids (db : DB) (r : VersionRow) :
    (insertVersion db r).versions.map VersionRow.id
      = db.versions.map VersionRow.id ++ [r.id] := by
  have h := congrArg (List.map Prod.snd) (insertVersion_pairs db r)
  simpa [List.map_map, Function.comp] using h

/-- Result of a commit on its own artifact's version list: every sibling is
cleared and the new row, flagged latest, is appended (the new row's id
being fresh). -/
theorem filter_update_self (r : VersionRow) (rows : List VersionRow)
    (h : ∀ v ∈ rows, v.id ≠ r.id) :
    (update_latest_version (rows ++ [r]) r).filter
        (fun v => v.file_metadata_id == r.file_metadata_id)
      = (rows.filter (fun v => v.file_metadata_id == r.file_metadata_id)).map
          (fun v => { v with is_latest := false })
        ++ [{ r with is_latest := true }] := by
  rw [update_eq_map_triggerRow, List.map_append, List.filter_append]
  have hr : triggerRow r r = { r with is_latest := true } := by simp [triggerRow]
  have hlast : ([r].map (triggerRow r)).filter
      (fun v => v.file_metadata_id == r.file_metadata_id)
      = [{ r with is_latest := true }] := by
    simp [hr, List.filter]
  rw [hlast]
  congr 1
  induction rows with
  | nil => rfl
  | cons w rest ih =>
    have hw : w.id ≠ r.id := h w (List.mem_cons_self w rest)
    have hrest := ih (fun v hv => h v (List.mem_cons_of_mem w hv))
    by_cases h2 : w.file_metadata_id = r.file_metadata_id <;>
      simp [triggerRow, hw, h2, List.filter_cons, hrest]

/-- A commit leaves the version lists of all other artifacts untouched. -/
theorem filter_update_other (r : VersionRow) (fid : String)
    (hf : fid ≠ r.file_metadata_id) (rows : List VersionRow)
    (h : ∀ v ∈ rows, v.id ≠ r.id) :
    (update_latest_version (rows ++ [r]) r).filter (fun v => v.file_metadata_id == fid)
      = rows.filter (fun v => v.file_metadata_id == fid) := by
  rw [update_eq_map_triggerRow, List.map_append, List.filter_append]
  have hrf : r.file_metadata_id ≠ fid := Ne.symm hf
  have hb : (r.file_metadata_id == fid) = false := beq_eq_false_iff_ne.mpr hrf
  have hr : triggerRow r r = { r with is_latest := true } := by simp [triggerRow]
  have hlast : ([r].map (triggerRow r)).filter (fun v => v.file_metadata_id == fid)
      = [] := by
    simp [hr, List.filter, hb]
  rw [hlast, List.append_nil]
  induction rows with
  | nil => rfl
  | cons w rest ih =>
    have hw : w.id ≠ r.id := h w (List.mem_cons_self w rest)
    have hrest := ih (fun v hv => h v (List.mem_cons_of_mem w hv))
    by_cases h2 : w.file_metadata_id = r.file_metadata_id
    · have h3 : w.file_metadata_id ≠ fid := by rw [h2]; exact Ne.symm hf
      simp [triggerRow, hw, h2, h3, hrf, hf, List.filter_cons, hrest]
    · by_cases h3 : w.file_metadata_id = fid <;>
        simp [triggerRow, hw, h2, h3, hrf, hf, List.filter_cons, hrest]

/-- One commit with a fresh row id preserves the latest invariant. -/
theorem latestInv_insert (db : DB) (r : VersionRow)
    (hfresh : ∀ v ∈ db.versions, v.id ≠ r.id) (hinv : LatestInv db) :
    LatestInv (insertVersion db r) := by
  intro fid
  by_cases hf : fid = r.file_metadata_id
  · subst hf
    right
    have hv : artifactVersions (insertVersion db r) r.file_metadata_id
        = (db.versions.filter (fun v => v.file_metadata_id == r.file_metadata_id)).map
            (fun v => { v with is_latest := false })
          ++ [{ r with is_latest := true }] := by
      show (update_latest_version (db.versions ++ [r]) r).filter _ = _
      exact filter_update_self r db.versions hfresh
    rw [hv]
    constructor
    · intro v hvmem
      rw [List.dropLast_concat] at hvmem
      obtain ⟨u, _, rfl⟩ := List.mem_map.mp hvmem
      rfl
    · exact ⟨{ r with is_latest := true }, List.getLast?_concat _, rfl⟩
  · have hv : artifactVersions (insertVersion db r) fid = artifactVersions db fid := by
      show (update_latest_version (db.versions ++ [r]) r).filter _ = _
      exact filter_update_other r fid hf db.versions hfresh
    rw [artifactVersions] at hv ⊢
    rw [hv]
    exact hinv fid

/-- Commit order of the whole table after a sequence of commits. -/
theorem commitAll_pairs (commits : List VersionRow) (db : DB) :
    (commitAll db commits).versions.map (fun v => (v.file_metadata_id, v.id))
      = db.versions.map (fun v => (v.file_metadata_id, v.id))
        ++ commits.map (fun v => (v.file_metadata_id, v.id)) := by
  induction commits generalizing db with
  | nil => simp [commitAll]
  | cons c cs ih =>
    show (commitAll (insertVersion db c) cs).versions.map _ = _
    rw [ih, insertVersion_pairs]
    simp

/-- The latest invariant holds after any sequence of commits with fresh
(pairwise distinct) row ids, starting from a database satisfying it. -/
theorem latestInv_commitAll (commits : List VersionRow) (db : DB)
    (hinv : LatestInv db)
    (hids : ((db.versions ++ commits).map VersionRow.id).Nodup) :
    LatestInv (commitAll db commits) := by
  induction commits generalizing db with
  | nil => exact hinv
  | cons c cs ih =>
    rw [List.map_append] at hids
    have hdisj := (List.nodup_append.mp hids).2.2
    have hfresh : ∀ v ∈ db.versions, v.id ≠ c.id := by
      intro v hv heq
      exact hdisj (List.mem_map_of_mem VersionRow.id hv)
        (by rw [heq]; exact List.mem_cons_self _ _)
    have hids' : (((insertVersion db c).versions ++ cs).map VersionRow.id).Nodup := by
      rw [List.map_append, insertVersion_ids, List.append_assoc]
      simpa using hids
    exact ih (insertVersion db c) (latestInv_insert db c hfresh hinv) hids'

/-! ## Claim C1 -/

/-- C1: for every Artifact with at least one committed Version, exactly one
of its Versions has `is_latest = true` after any upload completes — namely
the most recently committed one by commit order — and committing a new
Version clears the previous latest and sets the new one as the single
atomic unit `insertVersion` (INSERT plus its `update_latest_version`
trigger). First conjunct: the invariant after any commit sequence with
fresh row ids; second conjunct: the table holds exactly the committed
rows, in commit order, so the last element of `artifactVersions` is the
most recently committed version of that artifact. -/
theorem latest_version_invariant (aks : List ApiKeyRecord)
    (fms : List FileMetadataRecord) (commits : List VersionRow)
    (h : (commits.map VersionRow.id).Nodup) :
    LatestInv (commitAll ⟨aks, fms, []⟩ commits) ∧
    (commitAll ⟨aks, fms, []⟩ commits).versions.map (fun v => (v.file_metadata_id, v.id))
      = commits.map (fun v => (v.file_metadata_id, v.id)) := by
  constructor
  · apply latestInv_commitAll
    · intro fid
      left
      rfl
    · simpa using h
  · rw [commitAll_pairs]
    rfl

/-- Witness for C1: three concrete commits (two to one artifact, one to
another) starting from an empty catalog. -/
theorem latest_version_invariant_witness :
    LatestInv (commitAll ⟨[], [], []⟩
      [⟨"v1", "f1", "1.0.0", "files/a/1.0.0/a.txt", 5, "text/plain", [], false, "ci", 1⟩,
       ⟨"v2", "f1", "2.0.0", "files/a/2.0.0/a.txt", 6, "text/plain", [], false, "ci", 2⟩,
       ⟨"v3", "f2", "1.0.0", "files/b/1.0.0/b.txt", 7, "text/plain", [], false, "ci", 3⟩]) ∧
    (commitAll (⟨[], [], []⟩ : DB)
      [⟨"v1", "f1", "1.0.0", "files/a/1.0.0/a.txt", 5, "text/plain", [], false, "ci", 1⟩,
       ⟨"v2", "f1", "2.0.0", "files/a/2.0.0/a.txt", 6, "text/plain", [], false, "ci", 2⟩,
       ⟨"v3", "f2", "1.0.0", "files/b/1.0.0/b.txt", 7, "text/plain", [], false, "ci", 3⟩]).versions.map
        (fun v => (v.file_metadata_id, v.id))
      = [("f1", "v1"), ("f1", "v2"), ("f2", "v3")] :=
  latest_version_invariant [] []
    [⟨"v1", "f1", "1.0.0", "files/a/1.0.0/a.txt", 5, "text/plain", [], false, "ci", 1⟩,
     ⟨"v2", "f1", "2.0.0", "files/a/2.0.0/a.txt", 6, "text/plain", [], false, "ci", 2⟩,
     ⟨"v3", "f2", "1.0.0", "files/b/1.0.0/b.txt", 7, "text/plain", [], false, "ci", 3⟩]
    (by decide)

/-! ## Behavior of the pre-storage stages -/

/-- Successful authentication touches only `api_keys`. -/
theorem authenticate_ok_tables {db : DB} {ah : Option String} {o : Oracle}
    {u : String} {db1 : DB} (h : authenticate db ah o = .ok (u, db1)) :
    db1.versions = db.versions ∧ db1.fileMetadata = db.fileMetadata := by
  unfold authenticate at h
  repeat' split at h
  all_goals simp at h
  all_goals obtain ⟨-, h2⟩ := h
  all_goals subst h2
  all_goals exact ⟨rfl, rfl⟩

/-- Successful artifact get-or-create touches only `file_metadata`. -/
theorem getOrCreate_ok_tables {db : DB} {name : String} {o : Oracle}
    {fm : FileMetadataRecord} {db2 : DB}
    (h : getOrCreateFileMetadata db name o = .ok (fm, db2)) :
    db2.versions = db.versions ∧ db2.apiKeys = db.apiKeys := by
  unfold getOrCreateFileMetadata at h
  repeat' split at h
  all_goals simp at h
  all_goals obtain ⟨-, h2⟩ := h
  all_goals subst h2
  all_goals cases hr : o.fmRace
  all_goals simp [fmAfterRace, hr]

/-- Shape of the effect trace across the commit step: the storage contacts
made before it are preserved, and at most one Supabase delete (the
rollback) is appended. -/
theorem commitAndRespond_effects_shape (cfg : Config) (o : Oracle) (v : ValidatedInput)
    (up : String) (fm : FileMetadataRecord) (db : DB) (prov : String)
    (objPath : Option String) (spath : String) (ssize : Nat) (stype : String)
    (osize : Nat) (otype : String) (durl0 : Option String) (effs : List Effect) :
    (commitAndRespond cfg o v up fm db prov objPath spath ssize stype osize otype
        durl0 effs).effects = effs ∨
    ∃ p, (commitAndRespond cfg o v up fm db prov objPath spath ssize stype osize otype
        durl0 effs).effects = effs ++ [Effect.supabaseRemove p] := by
  unfold commitAndRespond
  split
  · cases hobj : objPath with
    | none => left; simp [hobj]
    | some p =>
      by_cases hp : (prov == "supabase") = true
      · right
        exact ⟨p, by simp [hp]⟩
      · left
        simp [hp]
  · left
    rfl

/-! ## Claim C6 (corrected) -/

/-- C6 counterexample: a request that both fails authentication (no
Authorization header at all) and fails body validation (invalid artifact
name) is answered with 400 Bad Request naming the field — not with 401
Unauthorized as the claim states. -/
theorem auth_before_validation_counterexample :
    (POST cfgW happyOracle
        { reqW with authHeader := none, fileName := some "bad name!" } dbW).response
      = badRequest "Invalid fileName format. Use only letters, numbers, dash, and underscore." := by
  rfl

/-- C6 (amended): body validation precedes authentication — the routing
variant of the handler parses and validates the form before touching
Supabase, so any request whose body fails validation receives that
validation error (BadRequest / PayloadTooLarge) unchanged, with the
database untouched and no backend contacted, regardless of its
credential; Unauthorized is only reachable for requests whose body
validates. -/
theorem validation_precedes_authentication (cfg : Config) (o : Oracle)
    (req : UploadRequest) (db : DB) (r : Response)
    (h : validateForm req = .error r) :
    POST cfg o req db = ⟨r, db, []⟩ := by
  unfold POST
  rw [h]

/-- Witness for the amended C6 at the counterexample's concrete input. -/
theorem validation_precedes_authentication_witness :
    POST cfgW happyOracle
        { reqW with authHeader := none, fileName := some "bad name!" } dbW
      = ⟨badRequest "Invalid fileName format. Use only letters, numbers, dash, and underscore.",
         dbW, []⟩ :=
  validation_precedes_authentication cfgW happyOracle
    { reqW with authHeader := none, fileName := some "bad name!" } dbW
    (badRequest "Invalid fileName format. Use only letters, numbers, dash, and underscore.")
    rfl

/-! ## Claim C3 -/

/-- C3: when a Version with the same (name, version) pair already exists,
the upload is answered 409 Conflict at the pre-check stage: no storage
backend is contacted (empty effect trace) and the versions table is
exactly what it was before the request. -/
theorem duplicate_precheck_conflict (cfg : Config) (o : Oracle) (req : UploadRequest)
    (db : DB) (v : ValidatedInput) (su sk up : String) (db1 : DB)
    (fm : FileMetadataRecord) (db2 : DB)
    (hv : validateForm req = .ok v)
    (hsu : cfg.supabaseUrl = some su) (hsk : cfg.serviceRoleKey = some sk)
    (hauth : authenticate db req.authHeader o = .ok (up, db1))
    (hfm : getOrCreateFileMetadata db1 v.trimmedFileName o = .ok (fm, db2))
    (hchk : o.versionCheckError = false)
    (hdup : db2.versions.any
        (fun w => w.file_metadata_id == fm.id && w.version == v.trimmedVersion) = true) :
    POST cfg o req db
      = ⟨conflict ("Version " ++ v.trimmedVersion ++ " already exists for file "
          ++ v.trimmedFileName), db2, []⟩
    ∧ db2.versions = db.versions := by
  have hd : checkDuplicateVersion db2 fm.id v.trimmedVersion v.trimmedFileName o
      = some (conflict ("Version " ++ v.trimmedVersion ++ " already exists for file "
          ++ v.trimmedFileName)) := by
    unfold checkDuplicateVersion
    simp [hchk, hdup]
  constructor
  · unfold POST
    simp only [hv, hsu, hsk, hauth, hfm, hd, Option.isNone_some, Bool.or_self]
    simp
  · rw [(getOrCreate_ok_tables hfm).1, (authenticate_ok_tables hauth).1]

/-- Witness for C3: re-uploading agent 1.0.0 over a catalog already
holding that version yields the 409 with no effects. -/
theorem duplicate_precheck_conflict_witness :
    POST cfgW happyOracle reqW
        ⟨[⟨"k1", "gitlab-ci", "secret-1", true, none⟩],
         [⟨"fm-1", "agent", 0⟩],
         [⟨"v0", "fm-1", "1.0.0", "files/agent/1.0.0/a.txt", 5, "text/plain", [], true, "ci", 0⟩]⟩
      = ⟨conflict "Version 1.0.0 already exists for file agent",
         ⟨[⟨"k1", "gitlab-ci", "secret-1", true, some 100⟩],
          [⟨"fm-1", "agent", 0⟩],
          [⟨"v0", "fm-1", "1.0.0", "files/agent/1.0.0/a.txt", 5, "text/plain", [], true, "ci", 0⟩]⟩, []⟩
    ∧ (⟨[⟨"k1", "gitlab-ci", "secret-1", true, some 100⟩],
         [⟨"fm-1", "agent", 0⟩],
         [⟨"v0", "fm-1", "1.0.0", "files/agent/1.0.0/a.txt", 5, "text/plain", [], true, "ci", 0⟩]⟩ : DB).versions
        = (⟨[⟨"k1", "gitlab-ci", "secret-1", true, none⟩],
            [⟨"fm-1", "agent", 0⟩],
            [⟨"v0", "fm-1", "1.0.0", "files/agent/1.0.0/a.txt", 5, "text/plain", [], true, "ci", 0⟩]⟩ : DB).versions :=
  duplicate_precheck_conflict cfgW happyOracle reqW
    ⟨[⟨"k1", "gitlab-ci", "secret-1", true, none⟩],
     [⟨"fm-1", "agent", 0⟩],
     [⟨"v0", "fm-1", "1.0.0", "files/agent/1.0.0/a.txt", 5, "text/plain", [], true, "ci", 0⟩]⟩
    ⟨⟨"a.txt", "text/plain", 5⟩, "agent", "1.0.0", none⟩
    "https://supa.example" "sr-key" "gitlab-ci"
    ⟨[⟨"k1", "gitlab-ci", "secret-1", true, some 100⟩],
     [⟨"fm-1", "agent", 0⟩],
     [⟨"v0", "fm-1", "1.0.0", "files/agent/1.0.0/a.txt", 5, "text/plain", [], true, "ci", 0⟩]⟩
    ⟨"fm-1", "agent", 0⟩
    ⟨[⟨"k1", "gitlab-ci", "secret-1", true, some 100⟩],
     [⟨"fm-1", "agent", 0⟩],
     [⟨"v0", "fm-1", "1.0.0", "files/agent/1.0.0/a.txt", 5, "text/plain", [], true, "ci", 0⟩]⟩
    rfl rfl rfl rfl rfl rfl rfl

/-! ## Claim C8 (corrected) -/

/-- C8 counterexample: losing the race to create a new artifact name does
not recover the winner's row — the handler returns the default 500
internal error instead of the existing Artifact. -/
theorem getOrCreate_race_counterexample :
    getOrCreateFileMetadata ⟨[], [], []⟩ "agent"
        { happyOracle with fmRace := some ⟨"fm-race", "agent", 50⟩ }
      = .error internalErrorDefault := by
  rfl

/-- C8 (amended): when the artifact name is absent at SELECT time and a
concurrent upload creates the same name before our INSERT, the INSERT's
unique-constraint failure is answered with the default InternalError —
the handler does not re-read and return the existing row. -/
theorem getOrCreate_race_returns_internal_error (db : DB) (name : String)
    (o : Oracle) (raced : FileMetadataRecord)
    (hq : o.fmQueryError = false)
    (hfind : db.fileMetadata.find? (fun f => f.file_name == name) = none)
    (hrace : o.fmRace = some raced) (hname : raced.file_name = name) :
    getOrCreateFileMetadata db name o = .error internalErrorDefault := by
  unfold getOrCreateFileMetadata
  simp [hq, hfind, fmAfterRace, hrace, hname]

/-- Witness for the amended C8 at the counterexample's concrete input. -/
theorem getOrCreate_race_returns_internal_error_witness :
    getOrCreateFileMetadata ⟨[], [], []⟩ "agent"
        { happyOracle with fmRace := some ⟨"fm-race", "agent", 50⟩ }
      = .error internalErrorDefault :=
  getOrCreate_race_returns_internal_error ⟨[], [], []⟩ "agent"
    { happyOracle with fmRace := some ⟨"fm-race", "agent", 50⟩ }
    ⟨"fm-race", "agent", 50⟩ rfl rfl rfl rfl

/-! ## Claim C4 (corrected) -/

/-- C4 counterexample: an upload that passes the duplicate pre-check but
loses the uniqueness race at commit time (a concurrent request committed
agent 1.0.0 in between) is answered 500 Internal Server Error — not 409
Conflict as the claim states. -/
theorem commit_race_conflict_counterexample :
    (POST cfgW
        { happyOracle with raceVersionRow := some raceRowW }
        reqW
        ⟨[⟨"k1", "gitlab-ci", "secret-1", true, none⟩], [⟨"fm-1", "agent", 0⟩], []⟩).response
      = internalError "Failed to create version record" := by
  rfl

/-- C4 (amended): every catalog failure at commit time — a commit-time
uniqueness loss exactly as any other insert failure — is reported as
InternalError 500 with message 'Failed to create version record'; the
handler never maps a commit-time unique violation to Conflict (409 is
produced by the pre-check only). -/
theorem commit_failure_internal_error (cfg : Config) (o : Oracle) (v : ValidatedInput)
    (up : String) (fm : FileMetadataRecord) (db : DB) (prov : String)
    (objPath : Option String) (spath : String) (ssize : Nat) (stype : String)
    (osize : Nat) (otype : String) (durl0 : Option String) (effs : List Effect)
    (h : (commitUniqueViolation o db fm.id v.trimmedVersion || o.versionInsertError) = true) :
    (commitAndRespond cfg o v up fm db prov objPath spath ssize stype osize otype
        durl0 effs).response
      = internalError "Failed to create version record" := by
  unfold commitAndRespond
  simp [h]

/-- Witness for the amended C4: a concrete commit-time unique violation. -/
theorem commit_failure_internal_error_witness :
    (commitAndRespond cfgW
        { happyOracle with raceVersionRow := some raceRowW }
        ⟨⟨"a.txt", "text/plain", 5⟩, "agent", "1.0.0", none⟩
        "gitlab-ci" ⟨"fm-1", "agent", 0⟩ ⟨[], [], []⟩ "supabase"
        (some "agent/1.0.0/a.txt") "files/agent/1.0.0/a.txt" 5 "text/plain" 5 "text/plain"
        none [Effect.supabaseUpload "agent/1.0.0/a.txt"]).response
      = internalError "Failed to create version record" :=
  commit_failure_internal_error cfgW
    { happyOracle with raceVersionRow := some raceRowW }
    ⟨⟨"a.txt", "text/plain", 5⟩, "agent", "1.0.0", none⟩
    "gitlab-ci" ⟨"fm-1", "agent", 0⟩ ⟨[], [], []⟩ "supabase"
    (some "agent/1.0.0/a.txt") "files/agent/1.0.0/a.txt" 5 "text/plain" 5 "text/plain"
    none [Effect.supabaseUpload "agent/1.0.0/a.txt"]
    (by rfl)

/-! ## Claim C5 -/

/-- C5: when the catalog commit fails after a successful storage write,
the just-written primary-backend object is deleted best-effort (the
rollback contact is appended to the trace), an overflow-backend write is
left in place (no delete is attempted), and the reported error is the
original commit failure — for either outcome of the rollback itself. -/
theorem rollback_best_effort (cfg : Config) (o : Oracle) (v : ValidatedInput)
    (up : String) (fm : FileMetadataRecord) (db : DB)
    (spath : String) (ssize : Nat) (stype : String) (osize : Nat) (otype : String)
    (durl0 : Option String) (effs : List Effect) (p : String)
    (h : (commitUniqueViolation o db fm.id v.trimmedVersion || o.versionInsertError) = true) :
    ((commitAndRespond cfg o v up fm db "supabase" (some p) spath ssize stype osize otype
        durl0 effs).effects = effs ++ [Effect.supabaseRemove p]) ∧
    ((commitAndRespond cfg o v up fm db "mega" none spath ssize stype osize otype
        durl0 effs).effects = effs) ∧
    (∀ b, (commitAndRespond cfg { o with removeFails := b } v up fm db "supabase" (some p)
        spath ssize stype osize otype durl0 effs).response
      = internalError "Failed to create version record") := by
  refine ⟨?_, ?_, ?_⟩
  · unfold commitAndRespond
    simp [h]
  · unfold commitAndRespond
    simp [h]
  · intro b
    have hb : (commitUniqueViolation { o with removeFails := b } db fm.id v.trimmedVersion
        || ({ o with removeFails := b } : Oracle).versionInsertError) = true := h
    unfold commitAndRespond
    simp [hb]

/-- Witness for C5 at a concrete commit-time failure. -/
theorem rollback_best_effort_witness :
    ((commitAndRespond cfgW { happyOracle with versionInsertError := true }
        ⟨⟨"a.txt", "text/plain", 5⟩, "agent", "1.0.0", none⟩
        "gitlab-ci" ⟨"fm-1", "agent", 0⟩ ⟨[], [], []⟩ "supabase"
        (some "agent/1.0.0/a.txt") "files/agent/1.0.0/a.txt" 5 "text/plain" 5 "text/plain"
        none [Effect.supabaseUpload "agent/1.0.0/a.txt"]).effects
      = [Effect.supabaseUpload "agent/1.0.0/a.txt",
         Effect.supabaseRemove "agent/1.0.0/a.txt"]) ∧
    ((commitAndRespond cfgW { happyOracle with versionInsertError := true }
        ⟨⟨"a.txt", "text/plain", 5⟩, "agent", "1.0.0", none⟩
        "gitlab-ci" ⟨"fm-1", "agent", 0⟩ ⟨[], [], []⟩ "mega" none
        "https://mega.nz/file/abc#k" 5 "text/plain" 5 "text/plain"
        (some "https://mega.nz/file/abc#k") [Effect.megaUpload "a.txt"]).effects
      = [Effect.megaUpload "a.txt"]) ∧
    (∀ b, (commitAndRespond cfgW
        { { happyOracle with versionInsertError := true } with removeFails := b }
        ⟨⟨"a.txt", "text/plain", 5⟩, "agent", "1.0.0", none⟩
        "gitlab-ci" ⟨"fm-1", "agent", 0⟩ ⟨[], [], []⟩ "supabase"
        (some "agent/1.0.0/a.txt") "files/agent/1.0.0/a.txt" 5 "text/plain" 5 "text/plain"
        none [Effect.supabaseUpload "agent/1.0.0/a.txt"]).response
      = internalError "Failed to create version record") := by
  have h := rollback_best_effort cfgW { happyOracle with versionInsertError := true }
    ⟨⟨"a.txt", "text/plain", 5⟩, "agent", "1.0.0", none⟩
    "gitlab-ci" ⟨"fm-1", "agent", 0⟩ ⟨[], [], []⟩
    "files/agent/1.0.0/a.txt" 5 "text/plain" 5 "text/plain"
    none [Effect.supabaseUpload "agent/1.0.0/a.txt"] "agent/1.0.0/a.txt" (by rfl)
  exact ⟨h.1, by
    have h2 := rollback_best_effort cfgW { happyOracle with versionInsertError := true }
      ⟨⟨"a.txt", "text/plain", 5⟩, "agent", "1.0.0", none⟩
      "gitlab-ci" ⟨"fm-1", "agent", 0⟩ ⟨[], [], []⟩
      "https://mega.nz/file/abc#k" 5 "text/plain" 5 "text/plain"
      (some "https://mega.nz/file/abc#k") [Effect.megaUpload "a.txt"] "x" (by rfl)
    exact h2.2.1, h.2.2⟩

/-! ## Claim C2 -/

/-- Oversized payloads fail validation with the 413 response. -/
theorem validateForm_too_large (req : UploadRequest) (f : FilePart) (fn ver : String)
    (hp : req.formParses = true) (hf : req.file = some f) (hfn : req.fileName = some fn)
    (hver : req.version = some ver)
    (hrfn : regexFileName (jsTrim fn) = true) (hrver : regexVersion (jsTrim ver) = true)
    (hsize : f.size > MAX_FILE_SIZE_BYTES) :
    validateForm req
      = .error (payloadTooLarge "File size exceeds maximum allowed size of 100MB") := by
  have hne1 : jsIsEmpty (jsTrim fn) = false := by
    unfold regexFileName at hrfn
    simp at hrfn
    exact hrfn.1
  have hne2 : jsIsEmpty (jsTrim ver) = false := by
    unfold regexVersion at hrver
    simp at hrver
    exact hrver.1
  have hn0 : ¬ (f.size ≤ 0) := by
    unfold MAX_FILE_SIZE_BYTES at hsize
    omega
  unfold validateForm
  simp [hp, hf, hfn, hver, hne1, hne2, hrfn, hrver, hn0, hsize]

/-- C2: routing determinism. (a) any payload over the 100 MiB hard ceiling
is rejected 413 with the database untouched and no storage backend
contacted — before authentication is even attempted; (b) a payload within
the 50 MiB threshold that reaches the storage stage is written to the
primary (Supabase) backend and the overflow backend is never contacted;
(c) a payload over the threshold (and within the ceiling, which
validation guarantees) is written to the overflow (MEGA) backend and the
primary backend is never contacted. -/
theorem routing_determinism (cfg : Config) (o : Oracle) (req : UploadRequest) (db : DB) :
    (∀ f fn ver, req.formParses = true → req.file = some f → req.fileName = some fn →
      req.version = some ver → regexFileName (jsTrim fn) = true →
      regexVersion (jsTrim ver) = true → f.size > MAX_FILE_SIZE_BYTES →
      POST cfg o req db
        = ⟨payloadTooLarge "File size exceeds maximum allowed size of 100MB", db, []⟩) ∧
    (∀ v su sk up db1 fm db2, validateForm req = .ok v → cfg.supabaseUrl = some su →
      cfg.serviceRoleKey = some sk → authenticate db req.authHeader o = .ok (up, db1) →
      getOrCreateFileMetadata db1 v.trimmedFileName o = .ok (fm, db2) →
      checkDuplicateVersion db2 fm.id v.trimmedVersion v.trimmedFileName o = none →
      o.prepareThrows = false → v.file.size ≤ SUPABASE_OBJECT_SIZE_LIMIT_BYTES →
      ((∃ p, Effect.supabaseUpload p ∈ (POST cfg o req db).effects) ∧
       ∀ n, Effect.megaUpload n ∉ (POST cfg o req db).effects)) ∧
    (∀ v su sk up db1 fm db2 me mp, validateForm req = .ok v → cfg.supabaseUrl = some su →
      cfg.serviceRoleKey = some sk → authenticate db req.authHeader o = .ok (up, db1) →
      getOrCreateFileMetadata db1 v.trimmedFileName o = .ok (fm, db2) →
      checkDuplicateVersion db2 fm.id v.trimmedVersion v.trimmedFileName o = none →
      o.prepareThrows = false → cfg.megaEmail = some me → cfg.megaPassword = some mp →
      v.file.size > SUPABASE_OBJECT_SIZE_LIMIT_BYTES →
      ((∃ n, Effect.megaUpload n ∈ (POST cfg o req db).effects) ∧
       ∀ p, Effect.supabaseUpload p ∉ (POST cfg o req db).effects)) := by
  refine ⟨?_, ?_, ?_⟩
  · intro f fn ver hp hf hfn hver hrfn hrver hsize
    unfold POST
    rw [validateForm_too_large req f fn ver hp hf hfn hver hrfn hrver hsize]
  · intro v su sk up db1 fm db2 hv hsu hsk hauth hfm hdup hprep hsize
    unfold POST
    simp only [hv, hsu, hsk, hauth, hfm, hdup, hprep, Option.isNone_some, Bool.or_self]
    simp only [Bool.false_eq_true, if_false, hsize, if_true]
    cases hse : o.storageUploadError with
    | true => simp [hse]
    | false =>
      simp only [hse, Bool.false_eq_true, if_false]
      rcases commitAndRespond_effects_shape cfg o v up fm db2 "supabase"
          (some (v.trimmedFileName ++ "/" ++ v.trimmedVersion ++ "/"
            ++ (if jsIsEmpty v.file.name = true
                then v.trimmedFileName ++ "-" ++ v.trimmedVersion else v.file.name)))
          (STORAGE_BUCKET ++ "/" ++ (v.trimmedFileName ++ "/" ++ v.trimmedVersion ++ "/"
            ++ (if jsIsEmpty v.file.name = true
                then v.trimmedFileName ++ "-" ++ v.trimmedVersion else v.file.name)))
          v.file.size
          (if jsIsEmpty v.file.type = true then "application/octet-stream" else v.file.type)
          v.file.size
          (if jsIsEmpty v.file.type = true then "application/octet-stream" else v.file.type)
          none
          [Effect.supabaseUpload (v.trimmedFileName ++ "/" ++ v.trimmedVersion ++ "/"
            ++ (if jsIsEmpty v.file.name = true
                then v.trimmedFileName ++ "-" ++ v.trimmedVersion else v.file.name))]
        with h | ⟨q, h⟩ <;> rw [h] <;> simp
  · intro v su sk up db1 fm db2 me mp hv hsu hsk hauth hfm hdup hprep hme hmp hsize
    have hn : ¬ (v.file.size ≤ SUPABASE_OBJECT_SIZE_LIMIT_BYTES) := Nat.not_le.mpr hsize
    unfold POST
    simp only [hv, hsu, hsk, hauth, hfm, hdup, hprep, hme, hmp, Option.isNone_some,
      Bool.or_self, Bool.false_eq_true, if_false, hn]
    cases hme2 : o.megaError with
    | true => simp [hme2]
    | false =>
      simp only [hme2, Bool.false_eq_true, if_false]
      rcases commitAndRespond_effects_shape cfg o v up fm db2 "mega" none o.megaLink
          v.file.size
          (if jsIsEmpty v.file.type = true then "application/octet-stream" else v.file.type)
          v.file.size
          (if jsIsEmpty v.file.type = true then "application/octet-stream" else v.file.type)
          (some o.megaLink)
          [Effect.megaUpload (if jsIsEmpty v.file.name = true
            then v.trimmedFileName ++ "-" ++ v.trimmedVersion else v.file.name)]
        with h | ⟨q, h⟩ <;> rw [h] <;> simp

/-- Witness for C2: the three routes at concrete sizes 100 MiB + 1 byte,
5 bytes, and 50 MiB + 1 byte. -/
theorem routing_determinism_witness :
    (POST cfgW happyOracle
        { reqW with file := some ⟨"big.bin", "application/octet-stream", 104857601⟩ } dbW
      = ⟨payloadTooLarge "File size exceeds maximum allowed size of 100MB", dbW, []⟩) ∧
    ((∃ p, Effect.supabaseUpload p ∈ (POST cfgW happyOracle reqW dbW).effects) ∧
     ∀ n, Effect.megaUpload n ∉ (POST cfgW happyOracle reqW dbW).effects) ∧
    ((∃ n, Effect.megaUpload n ∈ (POST cfgW happyOracle
        { reqW with file := some ⟨"big.bin", "application/octet-stream", 52428801⟩ } dbW).effects) ∧
     ∀ p, Effect.supabaseUpload p ∉ (POST cfgW happyOracle
        { reqW with file := some ⟨"big.bin", "application/octet-stream", 52428801⟩ } dbW).effects) := by
  refine ⟨?_, ?_, ?_⟩
  · exact (routing_determinism cfgW happyOracle
      { reqW with file := some ⟨"big.bin", "application/octet-stream", 104857601⟩ } dbW).1
      _ _ _ rfl rfl rfl rfl (by decide) (by decide) (by decide)
  · exact (routing_determinism cfgW happyOracle reqW dbW).2.1
      _ _ _ _ _ _ _ rfl rfl rfl rfl rfl rfl rfl (by decide)
  · exact (routing_determinism cfgW happyOracle
      { reqW with file := some ⟨"big.bin", "application/octet-stream", 52428801⟩ } dbW).2.2
      _ _ _ _ _ _ _ _ _ rfl rfl rfl rfl rfl rfl rfl rfl rfl (by decide)

/-! ## Claim C7 -/

/-- C7: a secret matching no stored credential and a secret matching a
revoked (`is_active = false`) credential produce identical results — the
same default 401 Unauthorized response, the same untouched database, the
same empty effect trace. The lookup filters on `is_active = true`, so
both lookups come back empty and take the same code path. -/
theorem wrong_vs_revoked_indistinguishable (cfg : Config) (o : Oracle)
    (req : UploadRequest) (db : DB) (v : ValidatedInput) (su sk : String)
    (a1 a2 k1 k2 : String)
    (hv : validateForm req = .ok v)
    (hsu : cfg.supabaseUrl = some su) (hsk : cfg.serviceRoleKey = some sk)
    (hth : o.apiKeySectionThrows = false) (hqe : o.apiKeyQueryError = false)
    (h1s : jsStartsWith a1 "Bearer " = true) (h1k : providedKeyOf a1 = k1)
    (h1ne : jsIsEmpty k1 = false)
    (h2s : jsStartsWith a2 "Bearer " = true) (h2k : providedKeyOf a2 = k2)
    (h2ne : jsIsEmpty k2 = false)
    (hwrong : ∀ r ∈ db.apiKeys, r.key_value ≠ k1)
    (hrevoked : ∃ r ∈ db.apiKeys, r.key_value = k2 ∧ r.is_active = false)
    (hrevall : ∀ r ∈ db.apiKeys, r.key_value = k2 → r.is_active = false) :
    POST cfg o { req with authHeader := some a1 } db = ⟨unauthorizedDefault, db, []⟩ ∧
    POST cfg o { req with authHeader := some a2 } db = ⟨unauthorizedDefault, db, []⟩ := by
  have hv1 : validateForm { req with authHeader := some a1 } = .ok v := hv
  have hv2 : validateForm { req with authHeader := some a2 } = .ok v := hv
  have hfind1 : db.apiKeys.find? (fun r => r.key_value == k1 && r.is_active) = none := by
    apply List.find?_eq_none.mpr
    intro r hr
    simp [hwrong r hr]
  have hfind2 : db.apiKeys.find? (fun r => r.key_value == k2 && r.is_active) = none := by
    apply List.find?_eq_none.mpr
    intro r hr
    by_cases hk : r.key_value = k2
    · simp [hk, hrevall r hr hk]
    · simp [hk]
  have hauth1 : authenticate db (some a1) o = .error unauthorizedDefault := by
    unfold authenticate
    simp [h1s, h1k, h1ne, hth, hqe, hfind1]
  have hauth2 : authenticate db (some a2) o = .error unauthorizedDefault := by
    unfold authenticate
    simp [h2s, h2k, h2ne, hth, hqe, hfind2]
  constructor
  · unfold POST
    simp only [hv1, hsu, hsk, Option.isNone_some, Bool.or_self]
    simp [hauth1]
  · unfold POST
    simp only [hv2, hsu, hsk, Option.isNone_some, Bool.or_self]
    simp [hauth2]

/-- Witness for C7: a nonexistent secret versus the revoked key of the
stored credential 'old-ci'. -/
theorem wrong_vs_revoked_indistinguishable_witness :
    POST cfgW happyOracle { reqW with authHeader := some "Bearer nope" }
        ⟨[⟨"k1", "gitlab-ci", "secret-1", true, none⟩,
          ⟨"k2", "old-ci", "revoked-1", false, none⟩], [], []⟩
      = ⟨unauthorizedDefault,
         ⟨[⟨"k1", "gitlab-ci", "secret-1", true, none⟩,
           ⟨"k2", "old-ci", "revoked-1", false, none⟩], [], []⟩, []⟩ ∧
    POST cfgW happyOracle { reqW with authHeader := some "Bearer revoked-1" }
        ⟨[⟨"k1", "gitlab-ci", "secret-1", true, none⟩,
          ⟨"k2", "old-ci", "revoked-1", false, none⟩], [], []⟩
      = ⟨unauthorizedDefault,
         ⟨[⟨"k1", "gitlab-ci", "secret-1", true, none⟩,
           ⟨"k2", "old-ci", "revoked-1", false, none⟩], [], []⟩, []⟩ :=
  wrong_vs_revoked_indistinguishable cfgW happyOracle reqW
    ⟨[⟨"k1", "gitlab-ci", "secret-1", true, none⟩,
      ⟨"k2", "old-ci", "revoked-1", false, none⟩], [], []⟩
    ⟨⟨"a.txt", "text/plain", 5⟩, "agent", "1.0.0", none⟩
    "https://supa.example" "sr-key"
    "Bearer nope" "Bearer revoked-1" "nope" "revoked-1"
    rfl rfl rfl rfl rfl rfl rfl rfl rfl rfl rfl
    (by decide) (by decide) (by decide)

/-! ## Claim C9 -/

/-- C9: download-URL resolution is deterministic, needing no live call.
(a) For an overflow-backend commit the stored MEGA link is returned
verbatim; (b) for a primary-backend commit the URL is the base URL plus
the fixed public path prefix plus the bucket-qualified object key;
(c, d) the read path resolves a stored location by the same rule: a full
URL verbatim, anything else prefixed deterministically. -/
theorem download_url_resolution (cfg : Config) (o : Oracle) (v : ValidatedInput)
    (up : String) (fm : FileMetadataRecord) (db : DB)
    (p spath link base su : String) (ssize osize : Nat) (stype otype : String)
    (effs : List Effect)
    (hnofail : (commitUniqueViolation o db fm.id v.trimmedVersion
      || o.versionInsertError) = false)
    (hsu : cfg.supabaseUrl = some su) :
    (strIncludes link "https://mega.nz" = true →
      ((commitAndRespond cfg o v up fm db "mega" none link ssize stype osize otype
          (some link) effs).response.status = 201 ∧
       dataDownloadUrl (commitAndRespond cfg o v up fm db "mega" none link ssize stype
          osize otype (some link) effs).response = some link)) ∧
    (strIncludes (publicUrl su p) "https://mega.nz" = false →
      ((commitAndRespond cfg o v up fm db "supabase" (some p) (STORAGE_BUCKET ++ "/" ++ p)
          ssize stype osize otype none effs).response.status = 201 ∧
       dataDownloadUrl (commitAndRespond cfg o v up fm db "supabase" (some p)
          (STORAGE_BUCKET ++ "/" ++ p) ssize stype osize otype none effs).response
        = some (stripTrailingSlash su ++ "/storage/v1/object/public/"
            ++ (STORAGE_BUCKET ++ "/" ++ p)))) ∧
    (jsStartsWith link "https://" = true → pageDownloadUrl base link = link) ∧
    (jsStartsWith spath "http://" = false → jsStartsWith spath "https://" = false →
      pageDownloadUrl base spath
        = stripTrailingSlash base ++ "/storage/v1/object/public/" ++ spath) := by
  have hms : (("mega" : String) == "supabase") = false := by decide
  have hss : (("supabase" : String) == "supabase") = true := by decide
  refine ⟨?_, ?_, ?_, ?_⟩
  · intro hlink
    unfold commitAndRespond
    simp [hnofail, hlink, hms, dataDownloadUrl, created]
  · intro hnolink
    unfold commitAndRespond
    simp [hnofail, hnolink, hss, hsu, dataDownloadUrl, created]
  · intro h
    unfold pageDownloadUrl
    simp [h]
  · intro h1 h2
    unfold pageDownloadUrl
    simp [h1, h2]

/-- Witness for C9 at concrete locations on both backends. -/
theorem download_url_resolution_witness :
    ((commitAndRespond cfgW happyOracle ⟨⟨"a.txt", "text/plain", 5⟩, "agent", "1.0.0", none⟩
        "gitlab-ci" ⟨"fm-1", "agent", 0⟩ ⟨[], [], []⟩ "mega" none
        "https://mega.nz/file/abc#k" 5 "text/plain" 5 "text/plain"
        (some "https://mega.nz/file/abc#k") []).response.status = 201 ∧
     dataDownloadUrl (commitAndRespond cfgW happyOracle
        ⟨⟨"a.txt", "text/plain", 5⟩, "agent", "1.0.0", none⟩
        "gitlab-ci" ⟨"fm-1", "agent", 0⟩ ⟨[], [], []⟩ "mega" none
        "https://mega.nz/file/abc#k" 5 "text/plain" 5 "text/plain"
        (some "https://mega.nz/file/abc#k") []).response
      = some "https://mega.nz/file/abc#k") ∧
    ((commitAndRespond cfgW happyOracle ⟨⟨"a.txt", "text/plain", 5⟩, "agent", "1.0.0", none⟩
        "gitlab-ci" ⟨"fm-1", "agent", 0⟩ ⟨[], [], []⟩ "supabase"
        (some "agent/1.0.0/a.txt") (STORAGE_BUCKET ++ "/" ++ "agent/1.0.0/a.txt")
        5 "text/plain" 5 "text/plain" none []).response.status = 201 ∧
     dataDownloadUrl (commitAndRespond cfgW happyOracle
        ⟨⟨"a.txt", "text/plain", 5⟩, "agent", "1.0.0", none⟩
        "gitlab-ci" ⟨"fm-1", "agent", 0⟩ ⟨[], [], []⟩ "supabase"
        (some "agent/1.0.0/a.txt") (STORAGE_BUCKET ++ "/" ++ "agent/1.0.0/a.txt")
        5 "text/plain" 5 "text/plain" none []).response
      = some "https://supa.example/storage/v1/object/public/files/agent/1.0.0/a.txt") ∧
    pageDownloadUrl "https://supa.example" "https://mega.nz/file/abc#k"
      = "https://mega.nz/file/abc#k" ∧
    pageDownloadUrl "https://supa.example" "files/agent/1.0.0/a.txt"
      = "https://supa.example/storage/v1/object/public/files/agent/1.0.0/a.txt" := by
  have h := download_url_resolution cfgW happyOracle
    ⟨⟨"a.txt", "text/plain", 5⟩, "agent", "1.0.0", none⟩
    "gitlab-ci" ⟨"fm-1", "agent", 0⟩ ⟨[], [], []⟩
    "agent/1.0.0/a.txt" "files/agent/1.0.0/a.txt" "https://mega.nz/file/abc#k"
    "https://supa.example" "https://supa.example" 5 5 "text/plain" "text/plain" []
    rfl rfl
  exact ⟨h.1 (by decide), h.2.1 (by decide), h.2.2.1 (by decide),
    h.2.2.2 (by decide) (by decide)⟩

/-! ## Claim C10 -/

/-- Looking up the overwritten key after the in-place map. -/
theorem jsonLookup_map_set (k : String) (v : Json) :
    ∀ m : List (String × Json), m.any (fun p => p.1 == k) = true →
      jsonLookup (m.map (fun p => if p.1 == k then (k, v) else p)) k = some v := by
  intro m
  induction m with
  | nil => simp
  | cons p rest ih =>
    intro hany
    simp only [List.map_cons]
    by_cases hp : p.1 = k
    · have hif : (if (p.1 == k) = true then ((k, v) : String × Json) else p) = (k, v) := by
        simp [hp]
      rw [hif]
      unfold jsonLookup
      rw [List.find?_cons_of_pos _ (by simp)]
      rfl
    · have hif : (if (p.1 == k) = true then ((k, v) : String × Json) else p) = p := by
        simp [hp]
      rw [hif]
      have hb : (p.1 == k) = false := beq_eq_false_iff_ne.mpr hp
      have hrest : rest.any (fun q => q.1 == k) = true := by
        simpa only [List.any_cons, hb, Bool.false_or] using hany
      unfold jsonLookup at ih ⊢
      rw [List.find?_cons_of_neg _ (by simp [hp])]
      exact ih hrest

/-- Looking up the appended key when it was absent. -/
theorem jsonLookup_append_set (k : String) (v : Json) :
    ∀ m : List (String × Json), m.any (fun p => p.1 == k) = false →
      jsonLookup (m ++ [(k, v)]) k = some v := by
  intro m
  induction m with
  | nil =>
    intro _
    unfold jsonLookup
    rw [List.nil_append, List.find?_cons_of_pos _ (by simp)]
    rfl
  | cons p rest ih =>
    intro hany
    cases hpb : (p.1 == k) with
    | true =>
      rw [List.any_cons, hpb, Bool.true_or] at hany
      exact absurd hany (by simp)
    | false =>
      have hrest : rest.any (fun q => q.1 == k) = false := by
        rw [List.any_cons, hpb, Bool.false_or] at hany
        exact hany
      rw [List.cons_append]
      unfold jsonLookup at ih ⊢
      rw [List.find?_cons_of_neg _ (by simp [hpb])]
      exact ih hrest

/-- Mapping the overwrite leaves every other key's value unchanged. -/
theorem jsonLookup_map_set_other (k : String) (v : Json) (q : String) (hq : q ≠ k) :
    ∀ m : List (String × Json),
      jsonLookup (m.map (fun p => if p.1 == k then (k, v) else p)) q = jsonLookup m q := by
  have hkq : (k == q) = false := beq_eq_false_iff_ne.mpr (Ne.symm hq)
  intro m
  induction m with
  | nil => rfl
  | cons p rest ih =>
    simp only [List.map_cons]
    unfold jsonLookup at ih ⊢
    by_cases hp : p.1 = k
    · have hif : (if (p.1 == k) = true then ((k, v) : String × Json) else p) = (k, v) := by
        simp [hp]
      have hpq : (p.1 == q) = false := by
        rw [hp]
        exact hkq
      rw [hif]
      simp only [List.find?_cons, hkq, hpq]
      exact ih
    · have hif : (if (p.1 == k) = true then ((k, v) : String × Json) else p) = p := by
        simp [hp]
      rw [hif]
      cases hpq : (p.1 == q) with
      | true => simp only [List.find?_cons, hpq]
      | false =>
        simp only [List.find?_cons, hpq]
        exact ih

/-- Appending the new key leaves every other key's value unchanged. -/
theorem jsonLookup_append_set_other (k : String) (v : Json) (q : String) (hq : q ≠ k) :
    ∀ m : List (String × Json),
      jsonLookup (m ++ [(k, v)]) q = jsonLookup m q := by
  have hkq : (k == q) = false := beq_eq_false_iff_ne.mpr (Ne.symm hq)
  intro m
  induction m with
  | nil =>
    unfold jsonLookup
    rw [List.nil_append]
    simp only [List.find?_cons, hkq]
  | cons p rest ih =>
    rw [List.cons_append]
    unfold jsonLookup at ih ⊢
    cases hpq : (p.1 == q) with
    | true => simp only [List.find?_cons, hpq]
    | false =>
      simp only [List.find?_cons, hpq]
      exact ih

/-- `setKey` stores the value under its key. -/
theorem jsonLookup_setKey_self (m : List (String × Json)) (k : String) (v : Json) :
    jsonLookup (setKey m k v) k = some v := by
  unfold setKey
  split
  · exact jsonLookup_map_set k v m (by assumption)
  · rename_i hneg
    have hf : m.any (fun p => p.1 == k) = false := by
      cases h2 : m.any (fun p => p.1 == k)
      · rfl
      · exact absurd h2 hneg
    exact jsonLookup_append_set k v m hf

/-- `setKey` leaves every other key's value unchanged. -/
theorem jsonLookup_setKey_other (m : List (String × Json)) (k : String) (v : Json)
    (q : String) (hq : q ≠ k) :
    jsonLookup (setKey m k v) q = jsonLookup m q := by
  unfold setKey
  split
  · exact jsonLookup_map_set_other k v q hq m
  · exact jsonLookup_append_set_other k v q hq m

/-- C10: the metadata persisted with a committed Version is not the
client-supplied object verbatim: the handler's merge writes the keys
storageProvider, originalFileSize and originalFileType last, so they
hold the handler's values whatever the client sent, every other client
key is preserved, and with no client metadata the stored map holds
exactly these three keys. -/
theorem metadata_merge_overwrites (client : List (String × Json)) (prov : String)
    (s : Nat) (t : String) :
    jsonLookup (mergedMetadata client prov s t) "storageProvider" = some (Json.str prov) ∧
    jsonLookup (mergedMetadata client prov s t) "originalFileSize"
      = some (Json.num (Int.ofNat s)) ∧
    jsonLookup (mergedMetadata client prov s t) "originalFileType" = some (Json.str t) ∧
    (∀ k, k ≠ "storageProvider" → k ≠ "originalFileSize" → k ≠ "originalFileType" →
      jsonLookup (mergedMetadata client prov s t) k = jsonLookup client k) ∧
    mergedMetadata [] prov s t
      = [("storageProvider", Json.str prov), ("originalFileSize", Json.num (Int.ofNat s)),
         ("originalFileType", Json.str t)] := by
  unfold mergedMetadata
  refine ⟨?_, ?_, ?_, ?_, ?_⟩
  · rw [jsonLookup_setKey_other _ _ _ _ (by decide),
      jsonLookup_setKey_other _ _ _ _ (by decide), jsonLookup_setKey_self]
  · rw [jsonLookup_setKey_other _ _ _ _ (by decide), jsonLookup_setKey_self]
  · rw [jsonLookup_setKey_self]
  · intro k h1 h2 h3
    rw [jsonLookup_setKey_other _ _ _ _ h3, jsonLookup_setKey_other _ _ _ _ h2,
      jsonLookup_setKey_other _ _ _ _ h1]
  · rfl

/-- Witness for C10: a client map that itself carries a storageProvider
key sees it overwritten, its other key survives, and the empty client
map yields exactly the three fixed keys. -/
theorem metadata_merge_overwrites_witness :
    jsonLookup (mergedMetadata [("commit", Json.str "abc"), ("storageProvider", Json.str "evil")]
        "supabase" 5 "text/plain") "storageProvider" = some (Json.str "supabase") ∧
    jsonLookup (mergedMetadata [("commit", Json.str "abc"), ("storageProvider", Json.str "evil")]
        "supabase" 5 "text/plain") "commit" = some (Json.str "abc") ∧
    mergedMetadata [] "supabase" 5 "text/plain"
      = [("storageProvider", Json.str "supabase"), ("originalFileSize", Json.num 5),
         ("originalFileType", Json.str "text/plain")] := by
  have h := metadata_merge_overwrites
    [("commit", Json.str "abc"), ("storageProvider", Json.str "evil")] "supabase" 5 "text/plain"
  exact ⟨h.1, h.2.2.2.1 "commit" (by decide) (by decide) (by decide), h.2.2.2.2⟩
